import Mathlib

/-!
Verification of the core of the `recruiter-ai` backend against its
specification.  The two components under study are

* `extract_structured_data` in `src/web/backend/services/resume_parser.py`
  (structured-data extraction from plain résumé text), and
* `JobScoringService.calculate_role_specific_score` in
  `src/web/backend/services/job_scoring_service.py`
  (the weighted scoring engine).

Text is modelled as `List Char`; Python dictionaries with a known key set
are modelled as structures of `Option` fields (a `none` field is an absent
key); numbers are modelled as exact rationals `ℚ` (Python `round(x, 2)` is
modelled as decimal round-half-to-even on hundredths); fallible Python code
(KeyError, ZeroDivisionError) is modelled with `Except`.  The breakdown's
`timestamp` field (`datetime.utcnow()`) is impure and is not modelled.
-/

abbrev Str := List Char

/-! ## Text utilities mirroring Python string/regex primitives -/

/-- Python whitespace for `str.strip` and the regex class `\s` (ASCII part). -/
def isPySpace (c : Char) : Bool :=
  c = ' ' ∨ c = '\t' ∨ c = '\n' ∨ c = '\r' ∨ c = '\x0b' ∨ c = '\x0c'

/-- ASCII lower-casing of one character, as `str.lower` acts on ASCII. -/
def lowerChar (c : Char) : Char :=
  if 'A' ≤ c ∧ c ≤ 'Z' then Char.ofNat (c.toNat + 32) else c

/-- ASCII upper-casing of one character. -/
def upperChar (c : Char) : Char :=
  if 'a' ≤ c ∧ c ≤ 'z' then Char.ofNat (c.toNat - 32) else c

def lowerStr (s : Str) : Str := s.map lowerChar

/-- Python `str.strip()`: drop leading and trailing whitespace. -/
def strip (s : Str) : Str :=
  ((s.dropWhile isPySpace).reverse.dropWhile isPySpace).reverse

/-- Python `str.split('\n')`. -/
def splitNl : Str → List Str
  | [] => [[]]
  | c :: t =>
    if c = '\n' then [] :: splitNl t
    else
      match splitNl t with
      | [] => [[c]]
      | h :: r => (c :: h) :: r

/-- `[line.strip() for line in content.split('\n') if line.strip()]` -/
def pyLines (content : Str) : List Str :=
  ((splitNl content).map strip).filter (fun l => l ≠ [])

/-- Does `p` occur as a prefix of `s` (plain, case-sensitive)? -/
def hasPfx : Str → Str → Bool
  | [], _ => true
  | _ :: _, [] => false
  | p :: pt, s :: st => p = s && hasPfx pt st

/-- Length of the maximal prefix of `s` whose characters satisfy `p`. -/
def runLen (p : Char → Bool) : Str → Nat
  | [] => 0
  | c :: t => if p c then runLen p t + 1 else 0

/-- `re.search` position scan: try the predicate on every suffix, left to
right (the empty suffix included), as a bare existence test. -/
def anyPos (p : Str → Bool) : Str → Bool
  | [] => p []
  | c :: t => p (c :: t) || anyPos p t

/-- Substring containment: `lit in s` / `re.search` on a literal pattern. -/
def containsLit (lit s : Str) : Bool := anyPos (fun s2 => hasPfx lit s2) s

/-- `re.search` on an alternation of literals, used as a boolean. -/
def containsAnyLit (lits : List Str) (s : Str) : Bool :=
  lits.any (fun l => containsLit l s)

/-- `re.search` driver: `m s2` gives the length of a match anchored at the
start of the suffix `s2`; the leftmost matching position wins and the
matched substring is returned (as `re.Match.group(0)`). -/
def searchWith (m : Str → Option Nat) : Str → Option Str
  | [] => (m []).map (fun n => List.take n ([] : Str))
  | c :: t =>
    match m (c :: t) with
    | some n => some (List.take n (c :: t))
    | none => searchWith m t

/-- Anchored match for an alternation of literal words, case-insensitively,
alternatives tried in the given order (regex alternation order). -/
def matchAltsAt (alts : List Str) (s : Str) : Option Nat :=
  alts.findSome? (fun a => if hasPfx (lowerStr a) (lowerStr s) then some a.length else none)

/-- `re.search('(alt1|alt2|...)', line, re.IGNORECASE)` returning `group(0)`
(the matched slice of the line, original case). -/
def searchAltsCI (alts : List Str) (s : Str) : Option Str :=
  searchWith (matchAltsAt alts) s

def isDigitCh (c : Char) : Bool := '0' ≤ c ∧ c ≤ '9'

/-- Regex `\w` (ASCII part): letters, digits, underscore. -/
def isWordCh (c : Char) : Bool :=
  ('a' ≤ c ∧ c ≤ 'z') ∨ ('A' ≤ c ∧ c ≤ 'Z') ∨ isDigitCh c ∨ c = '_'

/-- Regex class `[\w\.-]` of the email pattern. -/
def isEmailCh (c : Char) : Bool := isWordCh c ∨ c = '.' ∨ c = '-'

/-- Anchored match of `(19|20)\d{2}` (education year pattern), returning the
match length. -/
def matchYearAt (s : Str) : Option Nat :=
  if (hasPfx ("19".toList) s ∨ hasPfx ("20".toList) s) then
    match s with
    | _ :: _ :: c :: d :: _ => if isDigitCh c ∧ isDigitCh d then some 4 else none
    | _ => none
  else none

/-- `re.search(r'(19|20)\d{2}', line)`, `group(0)`. -/
def searchYear (s : Str) : Option Str := searchWith matchYearAt s

/-- Anchored match of `\d{4}` (experience year pattern). -/
def matchDigits4At : Str → Option Nat
  | a :: b :: c :: d :: _ =>
    if isDigitCh a ∧ isDigitCh b ∧ isDigitCh c ∧ isDigitCh d then some 4 else none
  | _ => none

/-- `re.search(r'\d{4}', line)`, `group(0)`. -/
def searchDigits4 (s : Str) : Option Str := searchWith matchDigits4At s

/-- Anchored match of the email pattern `[\w\.-]+@[\w\.-]+\.\w+`.  The
local part is a maximal `[\w\.-]` run (backtracking cannot move the `@`,
since `@` is outside the class); after `@`, greedy backtracking chooses the
largest split `k` of the domain run with a literal `'.'` at `k` followed by
at least one `\w` character. -/
def matchEmailAt (s : Str) : Option Nat :=
  let r1 := runLen isEmailCh s
  if r1 = 0 then none
  else
    match List.drop r1 s with
    | '@' :: s2 =>
      let r2 := runLen isEmailCh s2
      (((List.range r2).map (fun i => i + 1)).reverse.findSome? (fun k =>
        match List.drop k s2 with
        | '.' :: s3 =>
          let w := runLen isWordCh s3
          if w = 0 then none else some (k + 1 + w)
        | _ => none)).map (fun n => r1 + 1 + n)
    | _ => none

/-- `re.search(r'[\w\.-]+@[\w\.-]+\.\w+', line)`, `group(0)`. -/
def findEmail (s : Str) : Option Str := searchWith matchEmailAt s

/-- Greedy `X?` on a character class `p`: consume the character when it
matches and the continuation succeeds, falling back to not consuming. -/
def optC (p : Char → Bool) (k : Str → Option Nat) (s : Str) : Option Nat :=
  match s with
  | [] => k []
  | c :: t =>
    if p c then
      match k t with
      | some n => some (n + 1)
      | none => k (c :: t)
    else k (c :: t)

/-- `\d{n}` followed by a continuation. -/
def digitsN : Nat → (Str → Option Nat) → Str → Option Nat
  | 0, k, s => k s
  | _ + 1, _, [] => none
  | n + 1, k, c :: t => if isDigitCh c then (digitsN n k t).map (fun m => m + 1) else none

/-- Regex class `[-.\s]` of the phone pattern. -/
def isSepCh (c : Char) : Bool := c = '-' ∨ c = '.' ∨ isPySpace c

/-- Anchored match of the phone pattern `\(?\d{3}\)?[-.\s]?\d{3}[-.\s]?\d{4}`. -/
def matchPhoneAt : Str → Option Nat :=
  optC (fun c => c = '(')
    (digitsN 3 (optC (fun c => c = ')')
      (optC isSepCh (digitsN 3 (optC isSepCh (digitsN 4 (fun _ => some 0)))))))

/-- `re.search(r'\(?\d{3}\)?[-.\s]?\d{3}[-.\s]?\d{4}', line)`, `group(0)`. -/
def findPhone (s : Str) : Option Str := searchWith matchPhoneAt s

/-- Tail of the contact-info pattern after one of its literal alternatives:
`[:\s]*[\+\d\-\(\)\s]+` as an existence test (a run of `[:\s]` then at
least one `[\+\d\-\(\)\s]` character; whitespace is in both classes). -/
def contactTail : Str → Bool
  | [] => false
  | c :: t =>
    if c = '+' ∨ isDigitCh c ∨ c = '-' ∨ c = '(' ∨ c = ')' ∨ isPySpace c then true
    else if c = ':' ∨ isPySpace c then contactTail t
    else false

/-- `re.search(r'(?:Mobile|Phone|Tel|Telephone)[:\s]*[\+\d\-\(\)\s]+', line)`
as a boolean (case-sensitive literals). -/
def hasContactInfo (s : Str) : Bool :=
  anyPos (fun s2 =>
    [("Mobile".toList), ("Phone".toList), ("Tel".toList), ("Telephone".toList)].any
      (fun l => hasPfx l s2 && contactTail (List.drop l.length s2))) s

def isUpperCh (c : Char) : Bool := 'A' ≤ c ∧ c ≤ 'Z'

def isLowerCh (c : Char) : Bool := 'a' ≤ c ∧ c ≤ 'z'

/-- One word `[A-Z][a-z]+` of the name pattern; returns the rest. -/
def parseNameWord : Str → Option Str
  | [] => none
  | c :: t =>
    if isUpperCh c then
      let r := runLen isLowerCh t
      if r = 0 then none else some (List.drop r t)
    else none

/-- `(?:\s+[A-Z][a-z]+)+$` with fuel: at least one space-separated word,
consuming the whole rest of the line. -/
def parseNameTail : Nat → Str → Bool
  | 0, _ => false
  | _ + 1, [] => false
  | fuel + 1, s =>
    let r := runLen isPySpace s
    if r = 0 then false
    else
      match parseNameWord (List.drop r s) with
      | none => false
      | some rest => rest = [] || parseNameTail fuel rest

/-- `re.match(r'^[A-Z][a-z]+(?:\s+[A-Z][a-z]+)+$', line)` as a boolean. -/
def matchesNameShape (s : Str) : Bool :=
  match parseNameWord s with
  | none => false
  | some rest => parseNameTail s.length rest

/-! ## `extract_structured_data` (resume_parser.py) -/

/-- An education dict: keys `degree`/`school`/`year`, each possibly absent. -/
structure EducationEntry where
  degree : Option Str
  school : Option Str
  year : Option Str
deriving DecidableEq, Repr

/-- An experience dict: `title`, `company`, `duration` (always all set). -/
structure ExpEntry where
  title : Str
  company : Str
  duration : Str
deriving DecidableEq, Repr

/-- The fields of the returned `structured_data` dict that the claims are
about (the skills extraction writes the remaining fields and is disjoint
from these). -/
structure ResumeData where
  name : Str
  email : Str
  phone : Str
  education : List EducationEntry
  experience : List ExpEntry
deriving DecidableEq, Repr

def nameHeaders : List Str :=
  [("name:".toList), ("full name:".toList), ("candidate:".toList), ("applicant:".toList)]

/-- One line of the header scan: the first header the lowered line starts
with that leaves a non-empty stripped remainder. -/
def tryHeaders (line : Str) : Option Str :=
  nameHeaders.findSome? (fun h =>
    if hasPfx h (lowerStr line) then
      let n := strip (List.drop h.length line)
      if n = [] then none else some n
    else none)

/-- The three name strategies of `extract_structured_data`, in order:
explicit header in the first 10 lines; name-shaped line in the first 5
lines; first line unless it is a generic résumé header. -/
def extractName (lines : List Str) : Str :=
  match (lines.take 10).findSome? tryHeaders with
  | some n => n
  | none =>
    match (lines.take 5).find? matchesNameShape with
    | some l => l
    | none =>
      match lines with
      | [] => []
      | l0 :: _ =>
        if lowerStr l0 = ("resume".toList) ∨ lowerStr l0 = ("curriculum vitae".toList) ∨
            lowerStr l0 = ("cv".toList) then []
        else l0

/-- The email/phone loop: each line's match (when any) overwrites the held
value; both fields start empty. -/
def contactFold (lines : List Str) : Str × Str :=
  lines.foldl
    (fun ep line => ((findEmail line).getD ep.1, (findPhone line).getD ep.2))
    ([], [])

def emptyEdu : EducationEntry := ⟨none, none, none⟩

/-- `if current_edu:` — the dict is non-empty. -/
def eduNonEmpty (e : EducationEntry) : Bool :=
  e.degree.isSome || e.school.isSome || e.year.isSome

def eduStartLits : List Str :=
  [("education".toList), ("university".toList), ("college".toList), ("degree".toList),
   ("bachelor".toList), ("master".toList), ("phd".toList)]

def eduEndLits : List Str :=
  [("experience".toList), ("work".toList), ("employment".toList), ("skills".toList),
   ("projects".toList)]

def degreeAlts : List Str :=
  [("Bachelor".toList), ("B.S.".toList), ("BS".toList), ("Master".toList),
   ("M.S.".toList), ("MS".toList), ("PhD".toList), ("Doctor".toList),
   ("Associate".toList), ("Bachelors".toList), ("Masters".toList), ("BA".toList),
   ("MA".toList), ("MBA".toList), ("JD".toList), ("MD".toList)]

def schoolLits : List Str :=
  [("University".toList), ("College".toList), ("Institute".toList), ("School".toList),
   ("Academy".toList), ("Polytechnic".toList), ("State University".toList),
   ("Tech".toList)]

/-- Case-insensitive `re.search` of the school alternation, as a boolean. -/
def hasSchoolWord (line : Str) : Bool :=
  containsAnyLit (schoolLits.map lowerStr) (lowerStr line)

structure EduState where
  inSec : Bool
  cur : EducationEntry
  acc : List EducationEntry

/-- One line of the education loop.  The section-start test runs on every
line, before the in-section branch, exactly as in the source. -/
def eduStep (st : EduState) (line : Str) : EduState :=
  if containsAnyLit eduStartLits (lowerStr line) then
    { st with inSec := true }
  else if st.inSec then
    if containsAnyLit eduEndLits (lowerStr line) then
      { inSec := false,
        cur := emptyEdu,
        acc := st.acc ++ (if eduNonEmpty st.cur then [st.cur] else []) }
    else
      let c1 :=
        match searchAltsCI degreeAlts line with
        | some m => { st.cur with degree := some m }
        | none => st.cur
      let c2 := if hasSchoolWord line then { c1 with school := some (strip line) } else c1
      let c3 :=
        match searchYear line with
        | some y => { c2 with year := some y }
        | none => c2
      if c3.degree.isSome && c3.year.isSome then
        { st with cur := emptyEdu, acc := st.acc ++ [c3] }
      else
        { st with cur := c3 }
  else st

/-- The education extraction pass, with the end-of-input flush. -/
def eduPass (lines : List Str) : List EducationEntry :=
  let fin := lines.foldl eduStep ⟨false, emptyEdu, []⟩
  fin.acc ++ (if eduNonEmpty fin.cur then [fin.cur] else [])

def expStartLits : List Str :=
  [("experience".toList), ("work".toList), ("employment".toList)]

def expEndLits : List Str :=
  [("education".toList), ("skills".toList), ("projects".toList)]

def companySkipLits : List Str :=
  [("experience".toList), ("education".toList), ("skills".toList), ("projects".toList)]

/-- `lines.index(line)`: the index of the first occurrence of the value. -/
def idxOf : List Str → Str → Nat
  | [], _ => 0
  | x :: t, l => if x = l then 0 else idxOf t l + 1

/-- The company scan: the first subsequent line that neither contains a
4-digit year nor any of the experience/education/skills/projects keywords;
empty when none exists. -/
def findCompany (rest : List Str) : Str :=
  match rest.find? (fun nl =>
      (searchDigits4 nl).isNone && ¬containsAnyLit companySkipLits (lowerStr nl)) with
  | some l => l
  | none => []

structure ExpState where
  inSec : Bool
  cur : Option ExpEntry
  acc : List ExpEntry

/-- One line of the experience loop: contact-looking lines are skipped, the
section-start test runs on every line, and inside the section a year line
flushes the open entry and opens a new one whose company comes from the
scan starting after `lines.index(line)` (the first occurrence of the
line's text). -/
def expStep (lines : List Str) (st : ExpState) (line : Str) : ExpState :=
  if hasContactInfo line then st
  else if containsAnyLit expStartLits (lowerStr line) then
    { st with inSec := true }
  else if st.inSec then
    if containsAnyLit expEndLits (lowerStr line) then
      { inSec := false, cur := none, acc := st.acc ++ st.cur.toList }
    else
      match searchDigits4 line with
      | some y =>
        { st with
          acc := st.acc ++ st.cur.toList,
          cur := some
            ⟨line, strip (findCompany (List.drop (idxOf lines line + 1) lines)), y⟩ }
      | none => st
  else st

/-- The experience extraction pass, with the end-of-input flush. -/
def expPass (lines : List Str) : List ExpEntry :=
  let fin := lines.foldl (expStep lines) ⟨false, none, []⟩
  fin.acc ++ fin.cur.toList

/-- `ResumeParser.extract_structured_data`, restricted to the name, contact,
education and experience fields (the claims' scope). -/
def extract_structured_data (content : Str) : ResumeData :=
  let lines := pyLines content
  { name := extractName lines,
    email := (contactFold lines).1,
    phone := (contactFold lines).2,
    education := eduPass lines,
    experience := expPass lines }

/-! ## `JobScoringService` (job_scoring_service.py) -/

/-- The exceptions the scoring engine can raise: a dictionary lookup
`weights[key]` on an absent key, and a division by zero in a partial-credit
ratio. -/
inductive PyErr where
  | keyError (k : Str)
  | zeroDiv
deriving DecidableEq, Repr

/-- Decimal rounding to 2 places with ties to even, as Python's `round`. -/
def pyRound2 (q : ℚ) : ℚ :=
  let scaled := q * 100
  let f : ℤ := Int.floor scaled
  let r : ℚ := scaled - (f : ℚ)
  let n : ℤ :=
    if r < 1 / 2 then f
    else if 1 / 2 < r then f + 1
    else if f % 2 = 0 then f else f + 1
  (n : ℚ) / 100

/-- A skill-category dictionary: category name → (skill name → level). -/
abbrev SkillsDict := List (Str × List (Str × ℚ))

/-- First-occurrence association-list lookup (Python dict access). -/
def alookup (k : Str) : List (Str × α) → Option α
  | [] => none
  | (k2, v) :: t => if k2 = k then some v else alookup k t

/-- The `scoringWeights` dictionary; an absent key makes the corresponding
`weights[key]` lookup raise. -/
structure Weights where
  technicalSkills : Option ℚ
  experience : Option ℚ
  education : Option ℚ
  culturalFit : Option ℚ
deriving DecidableEq, Repr

/-- `self.default_weights`. -/
def default_weights : Weights :=
  { technicalSkills := some 0.4,
    experience := some 0.3,
    education := some 0.2,
    culturalFit := some 0.1 }

/-- The `requiredExperience` dictionary (`extra` holds any further keys, so
that Python truthiness of the dict is representable). -/
structure RequiredExperience where
  level : Option Str
  years : Option ℚ
  extra : List Str
deriving DecidableEq, Repr

def RequiredExperience.isEmptyDict (r : RequiredExperience) : Bool :=
  r.level.isNone && r.years.isNone && r.extra.isEmpty

def emptyReqExperience : RequiredExperience := ⟨none, none, []⟩

/-- The `requiredEducation` dictionary. -/
structure RequiredEducation where
  minimumDegree : Option Str
  preferredFields : Option (List Str)
  extra : List Str
deriving DecidableEq, Repr

def RequiredEducation.isEmptyDict (r : RequiredEducation) : Bool :=
  r.minimumDegree.isNone && r.preferredFields.isNone && r.extra.isEmpty

def emptyReqEducation : RequiredEducation := ⟨none, none, []⟩

/-- The `spec` dictionary of a job requirement. -/
structure JobSpec where
  title : Option Str
  department : Option Str
  requiredSkills : Option SkillsDict
  requiredExperience : Option RequiredExperience
  requiredEducation : Option RequiredEducation
  culturalRequirements : Option (List (Str × ℚ))
  scoringWeights : Option Weights
deriving DecidableEq, Repr

def emptyJobSpec : JobSpec := ⟨none, none, none, none, none, none, none⟩

structure JobRequirement where
  spec : Option JobSpec
deriving DecidableEq, Repr

/-- The `analysis` dictionary of a candidate record. -/
structure Analysis where
  technical_skills : Option SkillsDict
  experience_level : Option Str
  cultural_fit : Option ℚ
deriving DecidableEq, Repr

def emptyAnalysis : Analysis := ⟨none, none, none⟩

/-- The `structured_data` dictionary of a candidate record (the part the
scoring engine reads). -/
structure StructuredView where
  education : Option (List EducationEntry)
deriving DecidableEq, Repr

structure CandidateData where
  analysis : Option Analysis
  structured_data : Option StructuredView
deriving DecidableEq, Repr

/-- One component of the returned scoring breakdown. -/
structure ComponentScore where
  score : ℚ
  weight : ℚ
  weighted_score : ℚ
deriving DecidableEq, Repr

/-- The `scoring_breakdown` dictionary (without the impure timestamp). -/
structure ScoreBreakdown where
  overall_score : ℚ
  technical_skills : ComponentScore
  experience : ComponentScore
  education : ComponentScore
  cultural_fit : ComponentScore
  job_title : Str
  job_department : Str
deriving DecidableEq, Repr

/-- `JobScoringService._calculate_technical_score`. -/
def _calculate_technical_score (candidate_skills required_skills : SkillsDict) :
    Except PyErr ℚ :=
  if required_skills.isEmpty then .ok 0
  else do
    let res ← [("programmingLanguages".toList), ("frameworks".toList),
        ("cloudAndDevOps".toList), ("tools".toList)].foldlM
      (fun (acc : ℚ × ℕ) category => do
        let required := (alookup category required_skills).getD []
        let candidate := (alookup category candidate_skills).getD []
        required.foldlM
          (fun (acc2 : ℚ × ℕ) skillMin => do
            let candidate_level := (alookup skillMin.1 candidate).getD 0
            if candidate_level ≥ skillMin.2 then
              pure (acc2.1 + 1, acc2.2 + 1)
            else if skillMin.2 = 0 then
              Except.error PyErr.zeroDiv
            else
              pure (acc2.1 + max 0 (candidate_level / skillMin.2), acc2.2 + 1))
          acc)
      ((0 : ℚ), (0 : ℕ))
    if res.2 > 0 then pure ((res.1 / (res.2 : ℚ)) * 100) else pure 0

/-- The `level_values` dictionary with its `.get(x, 0)` default. -/
def levelValue (s : Str) : ℚ :=
  if s = ("Junior".toList) then 1
  else if s = ("Mid-level".toList) then 2
  else if s = ("Senior".toList) then 3
  else if s = ("Lead".toList) then 4
  else 0

/-- `JobScoringService._calculate_experience_score`. -/
def _calculate_experience_score (candidate_level : Str)
    (required_experience : RequiredExperience) : Except PyErr ℚ :=
  if required_experience.isEmptyDict then .ok 0
  else
    let required_level := required_experience.level.getD ("Mid-level".toList)
    let candidate_value := levelValue candidate_level
    let required_value := levelValue required_level
    if candidate_value ≥ required_value then .ok 100
    else if required_value = 0 then .error PyErr.zeroDiv
    else .ok ((candidate_value / required_value) * 100)

def isAlphaCh (c : Char) : Bool := isUpperCh c ∨ isLowerCh c

/-- `str.title` (ASCII): a letter after a non-letter is uppercased, any
other letter is lowercased. -/
def pyTitleGo (prevAlpha : Bool) : Str → Str
  | [] => []
  | c :: t =>
    if isAlphaCh c then
      (if prevAlpha then lowerChar c else upperChar c) :: pyTitleGo true t
    else c :: pyTitleGo false t

def pyTitle (s : Str) : Str := pyTitleGo false s

/-- `JobScoringService._normalize_degree`. -/
def _normalize_degree (degree : Str) : Str :=
  let d := lowerStr degree
  if containsAnyLit [("bachelor".toList), ("b.s.".toList), ("bs".toList), ("ba".toList)] d
    then ("Bachelor".toList)
  else if containsAnyLit [("master".toList), ("m.s.".toList), ("ms".toList),
      ("ma".toList), ("mba".toList)] d then ("Master".toList)
  else if containsAnyLit [("phd".toList), ("doctor".toList), ("ph.d.".toList),
      ("md".toList), ("jd".toList)] d then ("PhD".toList)
  else if containsLit ("associate".toList) d then ("Associate".toList)
  else if containsLit ("high school".toList) d then ("High School".toList)
  else pyTitle degree

/-- The `degree_values` dictionary. -/
def degreeValueQ (s : Str) : Option ℚ :=
  if s = ("High School".toList) then some 1
  else if s = ("Associate".toList) then some 2
  else if s = ("Bachelor".toList) then some 3
  else if s = ("Master".toList) then some 4
  else if s = ("PhD".toList) then some 5
  else none

/-- The `highest_degree` loop of `_calculate_education_score`. -/
def highestDegreeOf (candidate_education : List EducationEntry) : Str :=
  candidate_education.foldl
    (fun highest edu =>
      let degree := _normalize_degree (edu.degree.getD [])
      match degreeValueQ degree with
      | some v => if v > (degreeValueQ highest).getD 0 then degree else highest
      | none => highest)
    ("High School".toList)

/-- The preferred-fields bonus of `_calculate_education_score`: 20 when some
entry's degree text contains some preferred field, case-insensitively. -/
def fieldBonusOf (required_education : RequiredEducation)
    (candidate_education : List EducationEntry) : ℚ :=
  let preferred_fields := required_education.preferredFields.getD []
  if ¬preferred_fields.isEmpty ∧
      candidate_education.any (fun edu =>
        preferred_fields.any (fun pref =>
          containsLit (lowerStr pref) (lowerStr (edu.degree.getD [])))) then 20
  else 0

/-- `JobScoringService._calculate_education_score` (total: its one division
is guarded by `if required_value` in the source). -/
def _calculate_education_score (candidate_education : List EducationEntry)
    (required_education : RequiredEducation) : ℚ :=
  if required_education.isEmptyDict || candidate_education.isEmpty then 0
  else
    let required_degree := required_education.minimumDegree.getD ("Bachelor".toList)
    let highest_degree := highestDegreeOf candidate_education
    let candidate_value := (degreeValueQ highest_degree).getD 0
    let required_value := (degreeValueQ required_degree).getD 0
    let base_score : ℚ :=
      if candidate_value ≥ required_value then 100
      else if required_value ≠ 0 then (candidate_value / required_value) * 100
      else 0
    min 100 (base_score + fieldBonusOf required_education candidate_education)

/-- `JobScoringService._calculate_cultural_score`. -/
def _calculate_cultural_score (candidate_cultural_fit : ℚ)
    (cultural_requirements : List (Str × ℚ)) : Except PyErr ℚ :=
  if cultural_requirements.isEmpty then .ok candidate_cultural_fit
  else do
    let res ← cultural_requirements.foldlM
      (fun (acc : ℚ × ℕ) attrReq =>
        if candidate_cultural_fit ≥ attrReq.2 then
          pure (acc.1 + 1, acc.2 + 1)
        else if attrReq.2 = 0 then
          Except.error PyErr.zeroDiv
        else
          pure (acc.1 + max 0 (candidate_cultural_fit / attrReq.2), acc.2 + 1))
      ((0 : ℚ), (0 : ℕ))
    if res.2 > 0 then pure ((res.1 / (res.2 : ℚ)) * 100)
    else pure candidate_cultural_fit

/-- `weights[key]`: raises `KeyError` on an absent key. -/
def weightKey (w : Option ℚ) (k : Str) : Except PyErr ℚ :=
  match w with
  | some v => .ok v
  | none => .error (PyErr.keyError k)

def specOf (job_requirement : JobRequirement) : JobSpec :=
  job_requirement.spec.getD emptyJobSpec

/-- The `weights` binding of `calculate_role_specific_score`. -/
def weightsOf (job_requirement : JobRequirement) : Weights :=
  (specOf job_requirement).scoringWeights.getD default_weights

/-- The technical component exactly as `calculate_role_specific_score`
invokes it. -/
def technicalOf (candidate_data : CandidateData) (job_requirement : JobRequirement) :
    Except PyErr ℚ :=
  _calculate_technical_score
    ((candidate_data.analysis.getD emptyAnalysis).technical_skills.getD [])
    ((specOf job_requirement).requiredSkills.getD [])

/-- The experience component exactly as `calculate_role_specific_score`
invokes it. -/
def experienceOf (candidate_data : CandidateData) (job_requirement : JobRequirement) :
    Except PyErr ℚ :=
  _calculate_experience_score
    ((candidate_data.analysis.getD emptyAnalysis).experience_level.getD ("Unknown".toList))
    ((specOf job_requirement).requiredExperience.getD emptyReqExperience)

/-- The education component exactly as `calculate_role_specific_score`
invokes it. -/
def educationOf (candidate_data : CandidateData) (job_requirement : JobRequirement) : ℚ :=
  _calculate_education_score
    ((candidate_data.structured_data.getD ⟨none⟩).education.getD [])
    ((specOf job_requirement).requiredEducation.getD emptyReqEducation)

/-- The cultural component exactly as `calculate_role_specific_score`
invokes it. -/
def culturalOf (candidate_data : CandidateData) (job_requirement : JobRequirement) :
    Except PyErr ℚ :=
  _calculate_cultural_score
    ((candidate_data.analysis.getD emptyAnalysis).cultural_fit.getD 0)
    ((specOf job_requirement).culturalRequirements.getD [])

/-- `JobScoringService.calculate_role_specific_score`: components are
evaluated first (in source order), then the four weight lookups happen in
the order of the `overall_score` expression; exceptions propagate. -/
def calculate_role_specific_score (candidate_data : CandidateData)
    (job_requirement : JobRequirement) : Except PyErr ScoreBreakdown :=
  match technicalOf candidate_data job_requirement with
  | .error e => .error e
  | .ok technical_score =>
    match experienceOf candidate_data job_requirement with
    | .error e => .error e
    | .ok experience_score =>
      let education_score := educationOf candidate_data job_requirement
      match culturalOf candidate_data job_requirement with
      | .error e => .error e
      | .ok cultural_score =>
        match weightKey (weightsOf job_requirement).technicalSkills
            ("technicalSkills".toList) with
        | .error e => .error e
        | .ok wT =>
          match weightKey (weightsOf job_requirement).experience
              ("experience".toList) with
          | .error e => .error e
          | .ok wE =>
            match weightKey (weightsOf job_requirement).education
                ("education".toList) with
            | .error e => .error e
            | .ok wD =>
              match weightKey (weightsOf job_requirement).culturalFit
                  ("culturalFit".toList) with
              | .error e => .error e
              | .ok wC =>
                let overall_score :=
                  technical_score * wT + experience_score * wE +
                    education_score * wD + cultural_score * wC
                .ok
                  { overall_score := pyRound2 overall_score,
                    technical_skills :=
                      ⟨pyRound2 technical_score, wT, pyRound2 (technical_score * wT)⟩,
                    experience :=
                      ⟨pyRound2 experience_score, wE, pyRound2 (experience_score * wE)⟩,
                    education :=
                      ⟨pyRound2 education_score, wD, pyRound2 (education_score * wD)⟩,
                    cultural_fit :=
                      ⟨pyRound2 cultural_score, wC, pyRound2 (cultural_score * wC)⟩,
                    job_title := (specOf job_requirement).title.getD ("Unknown".toList),
                    job_department :=
                      (specOf job_requirement).department.getD ("Unknown".toList) }

/-! ## Concrete instances used by closed theorems and witnesses -/

def tScenC : Str :=
  ("John Smith\nEducation\nBachelor of Science\nState University\n2015\nExperience\n...".toList)

def tDupYears : Str :=
  ("Experience\nEngineer 2019\nAlpha\nWork at Acme 2020\nEngineer 2019\nBeta".toList)

def candNone : CandidateData := ⟨none, none⟩

def reqDefaults : JobRequirement := ⟨none⟩

def zeroWeights : Weights := ⟨some 0, some 0, some 0, some 0⟩

def reqZeroW : JobRequirement := ⟨some { emptyJobSpec with scoringWeights := some zeroWeights }⟩

def reqThirdW : JobRequirement :=
  ⟨some { emptyJobSpec with
    scoringWeights := some ⟨some (1/3), some (1/3), some (1/6), some (1/6)⟩ }⟩

def specZeroW : JobSpec := { emptyJobSpec with scoringWeights := some zeroWeights }

def specMissW : JobSpec :=
  { emptyJobSpec with scoringWeights := some ⟨some 1, none, some 0, some 0⟩ }

/-- The breakdown record `calculate_role_specific_score` builds from its
intermediate values. -/
def mkBreakdown (cand : CandidateData) (req : JobRequirement)
    (t e c wT wE wD wC : ℚ) : ScoreBreakdown :=
  { overall_score :=
      pyRound2 (t * wT + e * wE + educationOf cand req * wD + c * wC),
    technical_skills := ⟨pyRound2 t, wT, pyRound2 (t * wT)⟩,
    experience := ⟨pyRound2 e, wE, pyRound2 (e * wE)⟩,
    education :=
      ⟨pyRound2 (educationOf cand req), wD, pyRound2 (educationOf cand req * wD)⟩,
    cultural_fit := ⟨pyRound2 c, wC, pyRound2 (c * wC)⟩,
    job_title := (specOf req).title.getD ("Unknown".toList),
    job_department := (specOf req).department.getD ("Unknown".toList) }

def bdDefaults : ScoreBreakdown :=
  mkBreakdown candNone reqDefaults 0 0 0 0.4 0.3 0.2 0.1

def reqEduBachelor : RequiredEducation := ⟨some ("Bachelor".toList), none, []⟩

def eduListMaster : List EducationEntry := [⟨some ("MS".toList), none, none⟩]

def eduListBachelor : List EducationEntry := [⟨some ("BS".toList), none, none⟩]

/-- The shape of every experience entry the extractor emits: it comes from
a year-matching line `l`, its title is `l`, its duration the matched year,
and its company the first qualifying line after the first occurrence of
`l`'s text in the line list. -/
def expEntryFromLine (lines : List Str) (e : ExpEntry) : Prop :=
  ∃ l, l ∈ lines ∧ ∃ y, searchDigits4 l = some y ∧
    e = ⟨l, strip (findCompany (List.drop (idxOf lines l + 1) lines)), y⟩

/-! ## Helper lemmas -/

theorem levelValue_nonneg (s : Str) : 0 ≤ levelValue s := by
  unfold levelValue
  repeat' split
  all_goals norm_num

theorem degreeValueQ_getD_nonneg (s : Str) : 0 ≤ (degreeValueQ s).getD 0 := by
  unfold degreeValueQ
  repeat' split
  all_goals norm_num

theorem pyRound2_zero : pyRound2 0 = 0 := by
  norm_num [pyRound2]

theorem contactFold_email (lines : List Str) :
    ∀ e p : Str,
      (lines.foldl
        (fun ep line => ((findEmail line).getD ep.1, (findPhone line).getD ep.2))
        (e, p)).1 = (lines.filterMap findEmail).getLastD e := by
  induction lines with
  | nil => intro e p; rfl
  | cons l t ih =>
    intro e p
    rw [List.foldl_cons, List.filterMap_cons]
    cases h : findEmail l with
    | none => simp only [h, Option.getD_none]; exact ih e _
    | some v =>
      simp only [h, Option.getD_some, List.getLastD_cons]
      exact ih v _

theorem contactFold_phone (lines : List Str) :
    ∀ e p : Str,
      (lines.foldl
        (fun ep line => ((findEmail line).getD ep.1, (findPhone line).getD ep.2))
        (e, p)).2 = (lines.filterMap findPhone).getLastD p := by
  induction lines with
  | nil => intro e p; rfl
  | cons l t ih =>
    intro e p
    rw [List.foldl_cons, List.filterMap_cons]
    cases h : findPhone l with
    | none => simp only [h, Option.getD_none]; exact ih _ p
    | some v =>
      simp only [h, Option.getD_some, List.getLastD_cons]
      exact ih _ v

theorem calc_ok_shape (cand : CandidateData) (req : JobRequirement)
    (bd : ScoreBreakdown)
    (h : calculate_role_specific_score cand req = .ok bd) :
    ∃ t e c wT wE wD wC,
      technicalOf cand req = .ok t ∧ experienceOf cand req = .ok e ∧
      culturalOf cand req = .ok c ∧
      (weightsOf req).technicalSkills = some wT ∧
      (weightsOf req).experience = some wE ∧
      (weightsOf req).education = some wD ∧
      (weightsOf req).culturalFit = some wC ∧
      bd = mkBreakdown cand req t e c wT wE wD wC := by
  unfold calculate_role_specific_score at h
  cases h1 : technicalOf cand req with
  | error e1 => rw [h1] at h; exact absurd h (by simp)
  | ok t =>
  rw [h1] at h
  cases h2 : experienceOf cand req with
  | error e2 => rw [h2] at h; exact absurd h (by simp)
  | ok e =>
  rw [h2] at h
  cases h3 : culturalOf cand req with
  | error e3 => rw [h3] at h; exact absurd h (by simp)
  | ok c =>
  rw [h3] at h
  cases h4 : (weightsOf req).technicalSkills with
  | none => rw [h4] at h; exact absurd h (by simp [weightKey])
  | some wT =>
  rw [h4] at h
  cases h5 : (weightsOf req).experience with
  | none => rw [h5] at h; exact absurd h (by simp [weightKey])
  | some wE =>
  rw [h5] at h
  cases h6 : (weightsOf req).education with
  | none => rw [h6] at h; exact absurd h (by simp [weightKey])
  | some wD =>
  rw [h6] at h
  cases h7 : (weightsOf req).culturalFit with
  | none => rw [h7] at h; exact absurd h (by simp [weightKey])
  | some wC =>
  rw [h7] at h
  simp only [weightKey, Except.ok.injEq] at h
  exact ⟨t, e, c, wT, wE, wD, wC, rfl, rfl, rfl, rfl, rfl, rfl, rfl, h.symm⟩

theorem calc_ok_intro (cand : CandidateData) (req : JobRequirement)
    (t e c wT wE wD wC : ℚ)
    (ht : technicalOf cand req = .ok t) (he : experienceOf cand req = .ok e)
    (hc : culturalOf cand req = .ok c)
    (hwT : (weightsOf req).technicalSkills = some wT)
    (hwE : (weightsOf req).experience = some wE)
    (hwD : (weightsOf req).education = some wD)
    (hwC : (weightsOf req).culturalFit = some wC) :
    calculate_role_specific_score cand req =
      .ok (mkBreakdown cand req t e c wT wE wD wC) := by
  unfold calculate_role_specific_score
  rw [ht, he, hc, hwT, hwE, hwD, hwC]
  rfl

/-! ## The claims -/

/-- Claim C1 fails on the code: on Scenario C's text the lines carrying the
degree and the school themselves match the education section-start trigger
and are consumed as headers, so the single education entry holds only the
year. -/
theorem C1_counterexample :
    (extract_structured_data tScenC).name = ("John Smith".toList) ∧
    searchAltsCI degreeAlts ("Bachelor of Science".toList) = some ("Bachelor".toList) ∧
    (extract_structured_data tScenC).education ≠
      [⟨some ("Bachelor".toList), some ("State University".toList),
        some ("2015".toList)⟩] ∧
    (extract_structured_data tScenC).education =
      [⟨none, none, some ("2015".toList)⟩] := by
  decide

/-- Claim C1 amended: the profile's name is "John Smith" and there is
exactly one education entry, holding only the year "2015". -/
theorem C1_amended :
    (extract_structured_data tScenC).name = ("John Smith".toList) ∧
    (extract_structured_data tScenC).education =
      [⟨none, none, some ("2015".toList)⟩] := by
  decide

/-- Claim C2 fails on the code: with all four weights present and zero the
function returns a ScoreBreakdown (overall 0) instead of failing. -/
theorem C2_counterexample :
    calculate_role_specific_score candNone reqZeroW =
      .ok (mkBreakdown candNone reqZeroW 0 0 0 0 0 0 0) ∧
    (mkBreakdown candNone reqZeroW 0 0 0 0 0 0 0).overall_score = 0 := by
  constructor
  · exact calc_ok_intro candNone reqZeroW 0 0 0 0 0 0 0 rfl rfl rfl rfl rfl rfl rfl
  · show pyRound2 ((0 : ℚ) * 0 + 0 * 0 + educationOf candNone reqZeroW * 0 + 0 * 0) = 0
    have h : ((0 : ℚ) * 0 + 0 * 0 + educationOf candNone reqZeroW * 0 + 0 * 0) = 0 := by
      ring
    rw [h, pyRound2_zero]

/-- Claim C2 amended: all-zero weights are not validated — any successful
result then carries overall score 0, and the call does succeed whenever the
three fallible component scores succeed. -/
theorem C2_amended_zero_weights_give_zero_score
    (cand : CandidateData) (spec : JobSpec)
    (hw : spec.scoringWeights = some zeroWeights) :
    (∀ bd, calculate_role_specific_score cand ⟨some spec⟩ = .ok bd →
      bd.overall_score = 0) ∧
    (∀ t e c, technicalOf cand ⟨some spec⟩ = .ok t →
      experienceOf cand ⟨some spec⟩ = .ok e →
      culturalOf cand ⟨some spec⟩ = .ok c →
      calculate_role_specific_score cand ⟨some spec⟩ =
        .ok (mkBreakdown cand ⟨some spec⟩ t e c 0 0 0 0)) := by
  have hwts : weightsOf ⟨some spec⟩ = zeroWeights := by
    unfold weightsOf specOf
    rw [show (JobRequirement.mk (some spec)).spec = some spec from rfl]
    rw [Option.getD_some, hw, Option.getD_some]
  constructor
  · intro bd hbd
    obtain ⟨t', e', c', wT', wE', wD', wC', ht', he', hc', hwT', hwE', hwD', hwC', hsh⟩ :=
      calc_ok_shape cand ⟨some spec⟩ bd hbd
    rw [hwts] at hwT' hwE' hwD' hwC'
    have hT : wT' = 0 := by
      have := hwT'
      simp [zeroWeights] at this
      exact this.symm
    have hE : wE' = 0 := by
      have := hwE'
      simp [zeroWeights] at this
      exact this.symm
    have hD : wD' = 0 := by
      have := hwD'
      simp [zeroWeights] at this
      exact this.symm
    have hC : wC' = 0 := by
      have := hwC'
      simp [zeroWeights] at this
      exact this.symm
    rw [hsh, hT, hE, hD, hC]
    show pyRound2 (t' * 0 + e' * 0 + educationOf cand ⟨some spec⟩ * 0 + c' * 0) = 0
    have h : (t' * 0 + e' * 0 + educationOf cand ⟨some spec⟩ * 0 + c' * 0 : ℚ) = 0 := by
      ring
    rw [h, pyRound2_zero]
  · intro t e c ht he hc
    exact calc_ok_intro cand ⟨some spec⟩ t e c 0 0 0 0 ht he hc
      (by rw [hwts]; rfl) (by rw [hwts]; rfl) (by rw [hwts]; rfl) (by rw [hwts]; rfl)

theorem C2_witness :
    (mkBreakdown candNone ⟨some specZeroW⟩ 0 0 0 0 0 0 0).overall_score = 0 ∧
    calculate_role_specific_score candNone ⟨some specZeroW⟩ =
      .ok (mkBreakdown candNone ⟨some specZeroW⟩ 0 0 0 0 0 0 0) := by
  have h := C2_amended_zero_weights_give_zero_score candNone specZeroW rfl
  have hok := h.2 0 0 0 rfl rfl rfl
  exact ⟨h.1 _ hok, hok⟩

/-- Claim C3: the overall score is the weight-dot-product of the four raw
component scores, rounded to 2 decimals. -/
theorem C3_overall_is_weighted_dot_product
    (cand : CandidateData) (req : JobRequirement) (t e c wT wE wD wC : ℚ)
    (bd : ScoreBreakdown)
    (ht : technicalOf cand req = .ok t)
    (he : experienceOf cand req = .ok e)
    (hc : culturalOf cand req = .ok c)
    (hwT : (weightsOf req).technicalSkills = some wT)
    (hwE : (weightsOf req).experience = some wE)
    (hwD : (weightsOf req).education = some wD)
    (hwC : (weightsOf req).culturalFit = some wC)
    (hbd : calculate_role_specific_score cand req = .ok bd) :
    bd.overall_score =
      pyRound2 (t * wT + e * wE + educationOf cand req * wD + c * wC) := by
  obtain ⟨t', e', c', wT', wE', wD', wC', ht', he', hc', hwT', hwE', hwD', hwC', hsh⟩ :=
    calc_ok_shape cand req bd hbd
  rw [ht] at ht'
  rw [he] at he'
  rw [hc] at hc'
  rw [hwT] at hwT'
  rw [hwE] at hwE'
  rw [hwD] at hwD'
  rw [hwC] at hwC'
  cases ht'
  cases he'
  cases hc'
  cases hwT'
  cases hwE'
  cases hwD'
  cases hwC'
  rw [hsh]
  rfl

theorem C3_witness :
    bdDefaults.overall_score =
      pyRound2 ((0 : ℚ) * 0.4 + 0 * 0.3 + educationOf candNone reqDefaults * 0.2 +
        0 * 0.1) :=
  C3_overall_is_weighted_dot_product candNone reqDefaults 0 0 0 0.4 0.3 0.2 0.1
    bdDefaults rfl rfl rfl rfl rfl rfl rfl
    (calc_ok_intro candNone reqDefaults 0 0 0 0.4 0.3 0.2 0.1
      rfl rfl rfl rfl rfl rfl rfl)

/-- Claim C4 fails on the code: the surfaced component `weight` is the raw
weight, not rounded — with weight 1/3 the breakdown shows 1/3, whose
2-decimal rounding is 0.33. -/
theorem C4_counterexample :
    calculate_role_specific_score candNone reqThirdW =
      .ok (mkBreakdown candNone reqThirdW 0 0 0 (1/3) (1/3) (1/6) (1/6)) ∧
    (mkBreakdown candNone reqThirdW 0 0 0 (1/3) (1/3) (1/6)
        (1/6)).technical_skills.weight ≠
      pyRound2
        ((mkBreakdown candNone reqThirdW 0 0 0 (1/3) (1/3) (1/6)
          (1/6)).technical_skills.weight) := by
  constructor
  · exact calc_ok_intro candNone reqThirdW 0 0 0 (1/3) (1/3) (1/6) (1/6)
      rfl rfl rfl rfl rfl rfl rfl
  · show (1/3 : ℚ) ≠ pyRound2 (1/3)
    have hf : Int.floor ((1/3 : ℚ) * 100) = 33 := by
      rw [Int.floor_eq_iff]
      norm_num
    simp only [pyRound2, hf]
    norm_num

/-- Claim C4 amended: each component surfaces its score and its weighted
score rounded to 2 decimals, and its weight as given, unrounded. -/
theorem C4_amended_components_surfaced
    (cand : CandidateData) (req : JobRequirement) (t e c wT wE wD wC : ℚ)
    (bd : ScoreBreakdown)
    (ht : technicalOf cand req = .ok t)
    (he : experienceOf cand req = .ok e)
    (hc : culturalOf cand req = .ok c)
    (hwT : (weightsOf req).technicalSkills = some wT)
    (hwE : (weightsOf req).experience = some wE)
    (hwD : (weightsOf req).education = some wD)
    (hwC : (weightsOf req).culturalFit = some wC)
    (hbd : calculate_role_specific_score cand req = .ok bd) :
    bd.technical_skills = ⟨pyRound2 t, wT, pyRound2 (t * wT)⟩ ∧
    bd.experience = ⟨pyRound2 e, wE, pyRound2 (e * wE)⟩ ∧
    bd.education =
      ⟨pyRound2 (educationOf cand req), wD, pyRound2 (educationOf cand req * wD)⟩ ∧
    bd.cultural_fit = ⟨pyRound2 c, wC, pyRound2 (c * wC)⟩ := by
  obtain ⟨t', e', c', wT', wE', wD', wC', ht', he', hc', hwT', hwE', hwD', hwC', hsh⟩ :=
    calc_ok_shape cand req bd hbd
  rw [ht] at ht'
  rw [he] at he'
  rw [hc] at hc'
  rw [hwT] at hwT'
  rw [hwE] at hwE'
  rw [hwD] at hwD'
  rw [hwC] at hwC'
  cases ht'
  cases he'
  cases hc'
  cases hwT'
  cases hwE'
  cases hwD'
  cases hwC'
  rw [hsh]
  exact ⟨rfl, rfl, rfl, rfl⟩

theorem C4_witness :
    bdDefaults.technical_skills = ⟨pyRound2 0, 0.4, pyRound2 ((0 : ℚ) * 0.4)⟩ ∧
    bdDefaults.experience = ⟨pyRound2 0, 0.3, pyRound2 ((0 : ℚ) * 0.3)⟩ ∧
    bdDefaults.education =
      ⟨pyRound2 (educationOf candNone reqDefaults), 0.2,
        pyRound2 (educationOf candNone reqDefaults * 0.2)⟩ ∧
    bdDefaults.cultural_fit = ⟨pyRound2 0, 0.1, pyRound2 ((0 : ℚ) * 0.1)⟩ :=
  C4_amended_components_surfaced candNone reqDefaults 0 0 0 0.4 0.3 0.2 0.1
    bdDefaults rfl rfl rfl rfl rfl rfl rfl
    (calc_ok_intro candNone reqDefaults 0 0 0 0.4 0.3 0.2 0.1
      rfl rfl rfl rfl rfl rfl rfl)

/-- Claim C5: an empty or absent `requiredSkills` map gives technical score
0 with no error. -/
theorem C5_no_required_skills_scores_zero
    (cand : CandidateData) (req : JobRequirement)
    (h : (specOf req).requiredSkills = none ∨ (specOf req).requiredSkills = some []) :
    technicalOf cand req = .ok 0 := by
  unfold technicalOf
  rcases h with h | h
  · rw [h]
    rfl
  · rw [h]
    rfl

theorem C5_witness : technicalOf candNone reqDefaults = .ok 0 :=
  C5_no_required_skills_scores_zero candNone reqDefaults (Or.inl rfl)

/-- Claim C6: for a fixed education requirement and fixed field-bonus
applicability, the education score is monotonically non-decreasing in the
rank of the candidate's highest normalized degree. -/
theorem C6_education_score_monotone_in_degree_rank
    (req : RequiredEducation) (A B : List EducationEntry)
    (hA : A ≠ []) (hB : B ≠ [])
    (hbonus : fieldBonusOf req A = fieldBonusOf req B)
    (hrank : (degreeValueQ (highestDegreeOf B)).getD 0 ≤
      (degreeValueQ (highestDegreeOf A)).getD 0) :
    _calculate_education_score B req ≤ _calculate_education_score A req := by
  unfold _calculate_education_score
  have hAe : A.isEmpty = false := by
    cases A with
    | nil => exact absurd rfl hA
    | cons a t => rfl
  have hBe : B.isEmpty = false := by
    cases B with
    | nil => exact absurd rfl hB
    | cons b t => rfl
  rw [hAe, hBe]
  cases hre : req.isEmptyDict with
  | true => simp
  | false =>
    simp only [Bool.false_or]
    set cvA := (degreeValueQ (highestDegreeOf A)).getD 0 with hcvA
    set cvB := (degreeValueQ (highestDegreeOf B)).getD 0 with hcvB
    set rv := (degreeValueQ (req.minimumDegree.getD ("Bachelor".toList))).getD 0 with hrv
    have hA0 : 0 ≤ cvA := degreeValueQ_getD_nonneg _
    have hB0 : 0 ≤ cvB := degreeValueQ_getD_nonneg _
    have hbase :
        (if cvB ≥ rv then (100 : ℚ) else if rv ≠ 0 then cvB / rv * 100 else 0) ≤
        (if cvA ≥ rv then (100 : ℚ) else if rv ≠ 0 then cvA / rv * 100 else 0) := by
      by_cases hBge : cvB ≥ rv
      · have hAge : cvA ≥ rv := le_trans hBge hrank
        rw [if_pos hBge, if_pos hAge]
      · have hBlt : cvB < rv := lt_of_not_ge hBge
        have hrvpos : 0 < rv := lt_of_le_of_lt hB0 hBlt
        rw [if_neg hBge, if_pos (ne_of_gt hrvpos)]
        by_cases hAge : cvA ≥ rv
        · rw [if_pos hAge]
          have : cvB / rv ≤ 1 := (div_le_one hrvpos).mpr (le_of_lt hBlt)
          nlinarith
        · rw [if_neg hAge, if_pos (ne_of_gt hrvpos)]
          have : cvB / rv ≤ cvA / rv := div_le_div_of_nonneg_right hrank (le_of_lt hrvpos)
          nlinarith
    rw [hbonus]
    exact min_le_min (le_refl 100) (add_le_add_right hbase _)

theorem C6_witness :
    _calculate_education_score eduListBachelor reqEduBachelor ≤
      _calculate_education_score eduListMaster reqEduBachelor :=
  C6_education_score_monotone_in_degree_rank reqEduBachelor eduListMaster eduListBachelor
    (by decide) (by decide) rfl
    (by show (3 : ℚ) ≤ 4; norm_num)

/-- Claim C7 fails on the code: the company scan starts after
`lines.index(line)` — the first occurrence of the triggering line's text —
so a repeated year line re-uses the first occurrence's company ("Alpha",
not "Beta"); and a year line containing a section keyword ("Work at Acme
2020") starts no entry at all. -/
theorem C7_counterexample :
    (extract_structured_data tDupYears).experience =
      [⟨("Engineer 2019".toList), ("Alpha".toList), ("2019".toList)⟩,
       ⟨("Engineer 2019".toList), ("Alpha".toList), ("2019".toList)⟩] ∧
    ((extract_structured_data tDupYears).experience.any
      (fun e => decide (e.company = ("Beta".toList)))) = false ∧
    ((extract_structured_data tDupYears).experience.any
      (fun e => decide (e.title = ("Work at Acme 2020".toList)))) = false := by
  decide

/-- Claim C7 amended: every emitted experience entry has the shape
`expEntryFromLine`. -/
theorem C7_amended_experience_entry_shape
    (lines : List Str) (e : ExpEntry) (he : e ∈ expPass lines) :
    expEntryFromLine lines e := by
  unfold expPass at he
  have key : ∀ x,
      (x ∈ (lines.foldl (expStep lines) ⟨false, none, []⟩).acc ∨
        (lines.foldl (expStep lines) ⟨false, none, []⟩).cur = some x) →
      expEntryFromLine lines x := by
    apply List.foldlRecOn lines (expStep lines) (⟨false, none, []⟩ : ExpState)
      (motive := fun st => ∀ x, (x ∈ st.acc ∨ st.cur = some x) → expEntryFromLine lines x)
    · intro x hx
      rcases hx with hx | hx
      · exact absurd hx (List.not_mem_nil x)
      · exact Option.noConfusion hx
    · intro st ih l hl x hx
      unfold expStep at hx
      by_cases h1 : hasContactInfo l = true
      · rw [if_pos h1] at hx
        exact ih x hx
      rw [if_neg h1] at hx
      by_cases h2 : containsAnyLit expStartLits (lowerStr l) = true
      · rw [if_pos h2] at hx
        exact ih x hx
      rw [if_neg h2] at hx
      by_cases hsec : st.inSec = true
      · rw [if_pos hsec] at hx
        by_cases h3 : containsAnyLit expEndLits (lowerStr l) = true
        · rw [if_pos h3] at hx
          rcases hx with hx | hx
          · rcases List.mem_append.mp hx with hx | hx
            · exact ih x (Or.inl hx)
            · exact ih x (Or.inr (Option.mem_def.mp (Option.mem_toList.mp hx)))
          · exact Option.noConfusion hx
        · rw [if_neg h3] at hx
          cases hy : searchDigits4 l with
          | some y =>
            rw [hy] at hx
            simp only at hx
            rcases hx with hx | hx
            · rcases List.mem_append.mp hx with hx | hx
              · exact ih x (Or.inl hx)
              · exact ih x (Or.inr (Option.mem_def.mp (Option.mem_toList.mp hx)))
            · refine ⟨l, hl, y, hy, ?_⟩
              exact (Option.some.inj hx).symm
          | none =>
            rw [hy] at hx
            simp only at hx
            exact ih x hx
      · rw [if_neg hsec] at hx
        exact ih x hx
  rcases List.mem_append.mp he with hx | hx
  · exact key e (Or.inl hx)
  · exact key e (Or.inr (Option.mem_def.mp (Option.mem_toList.mp hx)))

theorem C7_witness :
    expEntryFromLine (pyLines tDupYears)
      ⟨("Engineer 2019".toList), ("Alpha".toList), ("2019".toList)⟩ :=
  C7_amended_experience_entry_shape (pyLines tDupYears)
    ⟨("Engineer 2019".toList), ("Alpha".toList), ("2019".toList)⟩ (by decide)

/-- Claim C8: the email and phone fields hold the match from the last line
carrying a match (last-match-wins; empty when no line matches). -/
theorem C8_contact_last_match_wins (content : Str) :
    (extract_structured_data content).email =
      ((pyLines content).filterMap findEmail).getLastD [] ∧
    (extract_structured_data content).phone =
      ((pyLines content).filterMap findPhone).getLastD [] := by
  constructor
  · exact contactFold_email (pyLines content) [] []
  · exact contactFold_phone (pyLines content) [] []

/-- Claim C9: a present `scoringWeights` map missing one of the four keys
makes the call fail (the `weights[key]` lookup raises) instead of falling
back to the defaults, and the defaults are used exactly when the
`scoringWeights` key is absent. -/
theorem C9_missing_weight_key_fails
    (cand : CandidateData) (spec : JobSpec) :
    (∀ w : Weights, spec.scoringWeights = some w →
      (w.technicalSkills = none ∨ w.experience = none ∨ w.education = none ∨
        w.culturalFit = none) →
      ∀ bd, calculate_role_specific_score cand ⟨some spec⟩ ≠ .ok bd) ∧
    (spec.scoringWeights = none → weightsOf ⟨some spec⟩ = default_weights) := by
  constructor
  · intro w hw hmiss bd hbd
    obtain ⟨t', e', c', wT', wE', wD', wC', ht', he', hc', hwT', hwE', hwD', hwC', hsh⟩ :=
      calc_ok_shape cand ⟨some spec⟩ bd hbd
    have hwts : weightsOf ⟨some spec⟩ = w := by
      unfold weightsOf specOf
      rw [show (JobRequirement.mk (some spec)).spec = some spec from rfl]
      rw [Option.getD_some, hw, Option.getD_some]
    rw [hwts] at hwT' hwE' hwD' hwC'
    rcases hmiss with h | h | h | h
    · rw [h] at hwT'
      exact Option.noConfusion hwT'
    · rw [h] at hwE'
      exact Option.noConfusion hwE'
    · rw [h] at hwD'
      exact Option.noConfusion hwD'
    · rw [h] at hwC'
      exact Option.noConfusion hwC'
  · intro hw
    unfold weightsOf specOf
    rw [show (JobRequirement.mk (some spec)).spec = some spec from rfl]
    rw [Option.getD_some, hw]
    rfl

theorem C9_witness :
    (∀ bd, calculate_role_specific_score candNone ⟨some specMissW⟩ ≠ .ok bd) ∧
    weightsOf ⟨some emptyJobSpec⟩ = default_weights := by
  constructor
  · exact (C9_missing_weight_key_fails candNone specMissW).1 ⟨some 1, none, some 0, some 0⟩
      rfl (Or.inr (Or.inl rfl))
  · exact (C9_missing_weight_key_fails candNone emptyJobSpec).2 rfl

/-- Claim C10: `_calculate_experience_score` is total (never divides by
zero) and its result always lies in `[0, 100]`. -/
theorem C10_experience_score_total_and_bounded
    (candidate_level : Str) (required_experience : RequiredExperience) :
    ∃ s, _calculate_experience_score candidate_level required_experience = .ok s ∧
      0 ≤ s ∧ s ≤ 100 := by
  unfold _calculate_experience_score
  split
  · exact ⟨0, rfl, le_refl 0, by norm_num⟩
  · set cv := levelValue candidate_level with hcv
    set rv := levelValue (required_experience.level.getD ("Mid-level".toList)) with hrv
    by_cases hge : cv ≥ rv
    · rw [if_pos hge]
      exact ⟨100, rfl, by norm_num, by norm_num⟩
    · have hlt : cv < rv := lt_of_not_ge hge
      have h0 : 0 ≤ cv := levelValue_nonneg _
      have hpos : 0 < rv := lt_of_le_of_lt h0 hlt
      rw [if_neg hge, if_neg (ne_of_gt hpos)]
      refine ⟨(cv / rv) * 100, rfl, ?_, ?_⟩
      · positivity
      · have h1 : cv / rv ≤ 1 := (div_le_one hpos).mpr (le_of_lt hlt)
        nlinarith
